import Mathlib

/-!
Verification of the workflow graph runtime of the plaintext-ai repository.

The definitions below are a shallow embedding of
src/frontend/client/src/components/workflow/presets.ts (the WorkflowBuilder
component: scheduler, adapter, clipboard/undo, save/load) together with the
data model declared in src/frontend/client/src/components/workflow/ToolNode.tsx.

JavaScript conventions are modelled explicitly:
* optional / possibly-undefined fields become Option;
* the truthiness test of a string treats the empty string as falsy
  (jsOr below models the JS expression a || b for strings);
* arrays are always truthy, even when empty;
* JS numbers used as layout coordinates are modelled as Int, since no
  claim depends on fractional positions.
-/

/-- Node status, from ToolNodeData.status in ToolNode.tsx:
pending | running | success | error. -/
inductive Status where
  | pending
  | running
  | success
  | error
deriving DecidableEq

/-- Tool types, the closed enumeration ToolType in ToolNode.tsx. -/
inductive ToolType where
  | sourceFinder              -- 'Source Finder'
  | contradictionChecker      -- 'Contradiction Checker'
  | dataAnalysis              -- 'Data Analysis' (unhandled by the workflow switch)
  | claimExtractor            -- 'Claim Extractor'
  | aiLiteratureReview        -- 'AI Literature Review'
  | referenceManagement       -- 'Reference & Citation Management'
  | exportTXT                 -- 'Export TXT'
  | exportDOC                 -- 'Export DOC'
deriving DecidableEq

/-- 2-D layout coordinate (ToolNodeData.position). -/
structure Pos where
  x : Int
  y : Int
deriving DecidableEq

/-- A paper as consumed by the adapter: getInputFromPredecessorNode reads
p.title, p.authors (joined when it is an array) and p.published. -/
structure Paper where
  title : String
  authors : Option (List String)  -- Array.isArray(p.authors) is modelled by isSome
  published : Option String
deriving DecidableEq

/-- A claim item as consumed by the adapter:
typeof c === 'string' ? c : (c.text || JSON.stringify(c)). -/
inductive ClaimItem where
  | cstr (s : String)
  | cobj (text : Option String)
deriving DecidableEq

/-- The opaque output payload of a node, with exactly the fields the adapter
probes: papers, claims, review, text; a bare string; or the error object
written by the catch handler of handleToolExecution. -/
inductive Output where
  | obj (papers : Option (List Paper)) (claims : Option (List ClaimItem))
        (review : Option String) (text : Option String)
  | str (s : String)
  | errObj (msg : String)
deriving DecidableEq

/-- The open config map, restricted to the keys the runtime reads
(ToolConfig in ToolNode.tsx / the switch in handleToolExecution). -/
structure ToolConfig where
  prompt : Option String := none
  model : Option String := none
  referencesInput : Option String := none
  citationStyle : Option String := none
  exportFileName : Option String := none
  reviewTopicScope : Option String := none
  reviewType : Option String := none
  reviewDepthLength : Option String := none
  reviewTone : Option String := none
  yearFrom : Option String := none
  yearTo : Option String := none
deriving DecidableEq

/-- ToolNodeData: the data record carried by a workflow node. -/
structure NodeData where
  id : String
  label : String
  toolType : ToolType
  config : ToolConfig
  status : Status
  output : Option Output := none
  sessionId : Option String := none
deriving DecidableEq

/-- A workflow node (react-flow Node<ToolNodeData>). -/
structure WNode where
  id : String
  position : Pos
  data : NodeData
deriving DecidableEq

/-- A workflow edge: target consumes source's output. -/
structure WEdge where
  id : String
  source : String
  target : String
deriving DecidableEq

/-- JS string disjunction a || b where a may be undefined and the empty
string is falsy. -/
def jsOr (a : Option String) (b : String) : String :=
  match a with
  | some s => if s = "" then b else s
  | none => b

/-- JS truthiness of an optional string field: undefined and the empty
string are falsy. -/
def strTruthy : Option String → Bool
  | none => false
  | some s => ¬ (s = "")

/-- JS truthiness of a node's output value: undefined and the empty string
are falsy, objects and non-empty strings are truthy. -/
def outputTruthy : Option Output → Bool
  | none => false
  | some (.str s) => ¬ (s = "")
  | some (.obj _ _ _ _) => true
  | some (.errObj _) => true

/-- One line per paper, from getInputFromPredecessorNode:
the template p.title ++ ". " ++ joined authors ++ " (" ++ published ++ ")". -/
def paperLine (p : Paper) : String :=
  p.title ++ ". " ++
    (match p.authors with
     | some as => String.intercalate ", " as
     | none => "") ++
    " (" ++ (p.published.getD "") ++ ")"

/-- Newline-joined paper lines. -/
def joinPapers (ps : List Paper) : String :=
  String.intercalate "\n" (ps.map paperLine)

/-- A JSON-like rendering of a claim object, used as the
JSON.stringify(c) fallback (escaping and whitespace are not modelled;
no claim depends on the exact text of the fallback). -/
def stringifyClaim : ClaimItem → String
  | .cstr s => "\x7b \"value\": \"" ++ s ++ "\" \x7d"
  | .cobj t => "\x7b \"text\": \"" ++ (t.getD "null") ++ "\" \x7d"

/-- One entry per claim: typeof c === 'string' ? c : (c.text || JSON.stringify(c)). -/
def claimEntry (c : ClaimItem) : String :=
  match c with
  | .cstr s => s
  | .cobj t => jsOr t (stringifyClaim (.cobj t))

/-- Claim texts joined by the separator line. -/
def joinClaims (cs : List ClaimItem) : String :=
  String.intercalate "\n---\n" (cs.map claimEntry)

/-- A JSON-like rendering of a whole output, the JSON.stringify(output, null, 2)
last resort (escaping and whitespace are not modelled; no claim depends on
the exact text of the fallback, only on which branch is taken). -/
def jsonStringify : Output → String
  | .obj ps cs rv tx =>
      "\x7b \"papers\": " ++
        (match ps with
         | some l => "[" ++ String.intercalate ", " (l.map paperLine) ++ "]"
         | none => "null") ++
      ", \"claims\": " ++
        (match cs with
         | some l => "[" ++ String.intercalate ", " (l.map stringifyClaim) ++ "]"
         | none => "null") ++
      ", \"review\": " ++ (match rv with | some r => "\"" ++ r ++ "\"" | none => "null") ++
      ", \"text\": " ++ (match tx with | some t => "\"" ++ t ++ "\"" | none => "null") ++
      " \x7d"
  | .str s => "\"" ++ s ++ "\""
  | .errObj m => "\x7b \"error\": \"" ++ m ++ "\" \x7d"

/-- Result of input adaptation: a string, a structured list of papers, or
null (the source function returns string | any[] | null). -/
inductive AdaptResult where
  | str (s : String)
  | papers (ps : List Paper)
  | nullv
deriving DecidableEq

/-- getInputFromPredecessorNode from presets.ts: find the first incoming
edge, resolve the predecessor, and adapt its output through the
priority-ordered branch cascade.

Note: the source guard for the papers branch is
(predToolType === 'Source Finder' || !predToolType); since toolType is a
required field of ToolNodeData, the !predToolType disjunct is unreachable
for well-typed nodes and is dropped here. -/
def getInputFromPredecessorNode (nodeId : String) (currentEdges : List WEdge)
    (currentNodes : List WNode) (toolTypeForContext : Option ToolType) : AdaptResult :=
  match currentEdges.find? (fun e => e.target = nodeId) with
  | none => .nullv
  | some incomingEdge =>
    match currentNodes.find? (fun n => n.id = incomingEdge.source) with
    | none => .nullv
    | some predNode =>
      if outputTruthy predNode.data.output then
        match predNode.data.output with
        | none => .nullv
        | some output =>
          let predToolType := predNode.data.toolType
          match output with
          | .str s => .str s  -- typeof output === 'string' (object probes are undefined)
          | .errObj _ => .str (jsonStringify output)  -- no probed field matches
          | .obj papers claims review text =>
            if toolTypeForContext = some .aiLiteratureReview ∧ papers.isSome then
              .papers (papers.getD [])
            else if papers.isSome ∧ predToolType = .sourceFinder then
              .str (joinPapers (papers.getD []))
            else if claims.isSome ∧
                (predToolType = .claimExtractor ∨ predToolType = .contradictionChecker) then
              .str (joinClaims (claims.getD []))
            else if strTruthy review then
              .str (review.getD "")
            else if strTruthy text then
              .str (text.getD "")
            else
              .str (jsonStringify output)
      else .nullv

/-- typeof extractedInput === 'string' ? extractedInput : ''. -/
def stringOrEmpty : AdaptResult → String
  | .str s => s
  | _ => ""

/-- JS disjunction adapted || fallback over an adaptation result: null and
the empty string are falsy, arrays (even empty) are truthy. -/
def jsOrAdapt (a : AdaptResult) (b : String) : AdaptResult :=
  match a with
  | .nullv => .str b
  | .str s => if s = "" then .str b else .str s
  | .papers ps => .papers ps

/-- The request body sent to the external tool endpoint, one constructor
per branch of the switch in handleToolExecution. -/
inductive ToolRequest where
  | sourceFinderReq (query : Option String) (model : Option String)
  | claimExtractorReq (prompt : String) (model : Option String)
  | contradictionCheckerReq (text : String) (modelId : Option String)
  | litReviewReq (reviewTopicScope reviewType reviewDepthLength reviewTone
      yearFrom yearTo : Option String) (papers : List Paper) (model : Option String)
  | referenceFormatReq (referencesInput : String) (citationStyle : Option String)
      (model : Option String)
  | exportTxtReq (exportData : AdaptResult) (exportFileName : String)
  | exportDocReq (content : AdaptResult) (fileName : String)
deriving DecidableEq

/-- The observable outcome of handleToolExecution, up to the external call:
either a request is issued to the named endpoint, or the node throws a
configuration / unknown-tool error before any fetch, or the node id was not
found. -/
inductive ExecOutcome where
  | notFound
  | request (endpoint : String) (req : ToolRequest)
  | configError (msg : String)
deriving DecidableEq

/-- handleToolExecution from presets.ts, modelled up to the external fetch:
per tool type, resolve the effective input (predecessor adaptation and/or
config fields, in the source's order) and either build the request body or
raise the error thrown before any fetch.

The sessionId minting and the asynchronous response handling are not part
of this pure fragment; the status/output write-back is modelled separately
by applyExecError below. -/
def handleToolExecution (nodes : List WNode) (edges : List WEdge)
    (nodeId : String) : ExecOutcome :=
  match nodes.find? (fun n => n.id = nodeId) with
  | none => .notFound
  | some nodeToExecute =>
    let config := nodeToExecute.data.config
    match nodeToExecute.data.toolType with
    | .sourceFinder =>
        .request "/api/source-finder/search" (.sourceFinderReq config.prompt config.model)
    | .claimExtractor =>
        let extractedInput := getInputFromPredecessorNode nodeId edges nodes none
        let inputText := jsOr config.prompt (stringOrEmpty extractedInput)
        if inputText = "" then
          .configError "Claim Extractor requires an input prompt or a connection providing text output."
        else
          .request "/api/claim-extractor/extract" (.claimExtractorReq inputText config.model)
    | .contradictionChecker =>
        let extractedInput := getInputFromPredecessorNode nodeId edges nodes none
        let inputText := jsOr config.prompt (stringOrEmpty extractedInput)
        if inputText = "" then
          .configError "Contradiction Checker requires an input prompt or connection with text/claims output."
        else
          .request "/api/contradiction-check/check" (.contradictionCheckerReq inputText config.model)
    | .aiLiteratureReview =>
        let predecessorOutput :=
          getInputFromPredecessorNode nodeId edges nodes (some .aiLiteratureReview)
        let papersInput :=
          match predecessorOutput with
          | .papers ps => ps  -- predecessorOutput && Array.isArray(predecessorOutput)
          | _ => []
        .request "/api/literature-review/generate"
          (.litReviewReq config.reviewTopicScope config.reviewType
            config.reviewDepthLength config.reviewTone config.yearFrom config.yearTo
            papersInput config.model)
    | .referenceManagement =>
        let referencesInputFromConfig := jsOr config.referencesInput ""
        let extractedInput := getInputFromPredecessorNode nodeId edges nodes none
        let inputStr :=
          if referencesInputFromConfig = "" then stringOrEmpty extractedInput
          else referencesInputFromConfig
        -- an empty inputStr only logs a warning; the endpoint is invoked anyway
        .request "/api/reference-management/format"
          (.referenceFormatReq inputStr config.citationStyle config.model)
    | .exportTXT =>
        let exportContent :=
          jsOrAdapt (getInputFromPredecessorNode nodeId edges nodes none)
            (jsOr config.prompt "")
        .request "/api/export-tools/txt"
          (.exportTxtReq exportContent (jsOr config.exportFileName "export.txt"))
    | .exportDOC =>
        let exportContent :=
          jsOrAdapt (getInputFromPredecessorNode nodeId edges nodes none)
            (jsOr config.prompt "")
        .request "/api/export-tools/doc"
          (.exportDocReq exportContent (jsOr config.exportFileName "export.doc"))
    | .dataAnalysis =>
        .configError "Unknown or unhandled tool type: Data Analysis"

/-- The catch handler's write-back: patch only the failing node to
status error with output = an error object carrying the message
(setNodes(... n.id === nodeId ? patched : n)). -/
def applyExecError (nodes : List WNode) (nodeId : String) (msg : String)
    (sessionId : Option String) : List WNode :=
  nodes.map (fun n =>
    if n.id = nodeId then
      { n with
        data := { n.data with
                  status := .error
                  output := some (.errObj msg)
                  sessionId := sessionId } }
    else n)

/-- An undoable clipboard action: the source records
\x7b type: 'paste' | 'cut', nodes, edges \x7d. -/
inductive ActionType where
  | paste
  | cut
deriving DecidableEq

structure EAction where
  type : ActionType
  nodes : List WNode
  edges : List WEdge
deriving DecidableEq

/-- The WorkflowBuilder component state: react-flow node/edge state,
running flag, scheduled timer handles, selection, copy buffer, undo/redo
slots and the monotone id counter (useRef(1)). -/
structure BuilderState where
  nodes : List WNode
  edges : List WEdge
  runningWorkflow : Bool := false
  workflowExecutionRefs : List Nat := []
  selection : List String := []   -- ids of the selected nodes
  copyBuffer : Option (List WNode × List WEdge) := none
  lastAction : Option EAction := none
  redoAction : Option EAction := none
  idCounter : Nat := 1
deriving DecidableEq

/-- Set a node's status, keeping every other field. -/
def setStatus (st : Status) (n : WNode) : WNode :=
  { n with data := { n.data with status := st } }

/-- onStopWorkflow: clear every scheduled timer, set every node's status to
pending, and leave the running state. -/
def onStopWorkflow (st : BuilderState) : BuilderState :=
  { st with
    workflowExecutionRefs := []
    nodes := st.nodes.map (setStatus .pending)
    runningWorkflow := false }

/-- How onRunWorkflow returned, for the caller/user report. -/
inductive RunOutcome where
  | emptyGraph          -- 'No workflow to run'
  | noRoots             -- 'No root nodes found in workflow'
  | started (rootIds : List String)
deriving DecidableEq

/-- Placeholder for the opaque window.setTimeout handles collected in the
started case; their values are platform identifiers with no semantics in
this model. -/
def timerStubs (roots : List WNode) : List Nat :=
  List.range roots.length

/-- onRunWorkflow, modelled up to the point where root executions are
scheduled: reject an empty graph; otherwise mark every node running, compute
the root nodes from the pre-run snapshot (nodesRef/edgesRef), and abort with
noRoots — without restoring the statuses — when none exist. The timer-driven
execution cascade itself is event-driven and outside this pure fragment. -/
def onRunWorkflow (st : BuilderState) : RunOutcome × BuilderState :=
  if st.nodes = [] then (.emptyGraph, st)
  else
    let rootNodes := st.nodes.filter (fun node => ¬ st.edges.any (fun edge => edge.target = node.id))
    let marked := { st with
                    runningWorkflow := true
                    nodes := st.nodes.map (setStatus .running) }
    if rootNodes = [] then
      (.noRoots, { marked with runningWorkflow := false })
    else
      (.started (rootNodes.map (fun (n : WNode) => n.id)),
       { marked with workflowExecutionRefs := timerStubs rootNodes })

/-- The node record written into a saved workflow document: the top-level
node fields are kept by the spread, while data is replaced by exactly
\x7b id, label, toolType, config, status: 'pending' \x7d — output and
sessionId are omitted. -/
structure SavedNodeData where
  id : String
  label : String
  toolType : ToolType
  config : ToolConfig
  status : Status
deriving DecidableEq

structure SavedNode where
  id : String
  position : Pos
  data : SavedNodeData
deriving DecidableEq

structure SaveDoc where
  nodes : List SavedNode
  edges : List WEdge
  savedAt : String
deriving DecidableEq

/-- Serialization of one node for onSaveWorkflow. -/
def serializeNode (n : WNode) : SavedNode :=
  { id := n.id
    position := n.position
    data := { id := n.data.id
              label := n.data.label
              toolType := n.data.toolType
              config := n.data.config
              status := .pending } }

/-- onSaveWorkflow: with a non-empty graph, build the workflow document
(statuses reset to pending, output/sessionId stripped) and write it to
storage/file; the component state itself is never mutated. now stands for
the ISO timestamp. -/
def onSaveWorkflow (st : BuilderState) (now : String) : Option SaveDoc × BuilderState :=
  if st.nodes = [] then (none, st)
  else
    (some { nodes := st.nodes.map serializeNode
            edges := st.edges
            savedAt := now },
     st)

/-- A parsed workflow document as read back from file: either field may be
missing (undefined / null). -/
structure LoadedDoc where
  nodes : Option (List WNode)
  edges : Option (List WEdge)
deriving DecidableEq

inductive LoadOutcome where
  | parseError      -- JSON.parse threw
  | invalidFormat   -- 'Invalid workflow file format'
  | loaded
deriving DecidableEq

/-- The per-node rewiring applied on load: status is forced back to
pending (config defaulting and callback re-attachment carry no further
model content). -/
def rewireLoadedNode (n : WNode) : WNode :=
  { n with data := { n.data with status := .pending } }

/-- onLoadWorkflow applied to a parsed document (none models a JSON.parse
failure): a document missing nodes or edges is rejected before any state
write; otherwise the rewired nodes and the edges replace the graph. -/
def onLoadWorkflow (st : BuilderState) (doc : Option LoadedDoc) :
    LoadOutcome × BuilderState :=
  match doc with
  | none => (.parseError, st)
  | some d =>
    match d.nodes, d.edges with
    | some ns, some es =>
        (.loaded, { st with
                    nodes := ns.map rewireLoadedNode
                    edges := es })
    | _, _ => (.invalidFormat, st)

/-- Decimal digit character, the rendering JS applies when a number is
interpolated into a template literal. -/
def digitChar (r : Nat) : Char :=
  match r with
  | 0 => '0' | 1 => '1' | 2 => '2' | 3 => '3' | 4 => '4'
  | 5 => '5' | 6 => '6' | 7 => '7' | 8 => '8' | _ => '9'

/-- Decimal rendering of a Nat as a character list, most significant digit
first (the standard base-10 toString). The first argument is structural
fuel; any fuel at least the value itself renders completely (natStr
supplies the value as its own fuel). -/
def natStrAux : Nat → Nat → List Char → List Char
  | 0, n, acc => digitChar n :: acc
  | fuel + 1, n, acc =>
      if n < 10 then digitChar n :: acc
      else natStrAux fuel (n / 10) (digitChar (n % 10) :: acc)

/-- Decimal rendering of a Nat as a string. -/
def natStr (n : Nat) : String :=
  String.mk (natStrAux n n [])

/-- Id minting as written in the source template literals:
a prefix, an underscore, and the decimal counter value. -/
def mkId (o : String) (k : Nat) : String :=
  o ++ "_" ++ natStr k

/-- Tool labels, the string values of the ToolType union. -/
def toolLabel : ToolType → String
  | .sourceFinder => "Source Finder"
  | .contradictionChecker => "Contradiction Checker"
  | .dataAnalysis => "Data Analysis"
  | .claimExtractor => "Claim Extractor"
  | .aiLiteratureReview => "AI Literature Review"
  | .referenceManagement => "Reference & Citation Management"
  | .exportTXT => "Export TXT"
  | .exportDOC => "Export DOC"

/-- tool.replace(/\s+/g, ''), the id prefix used by onDrop. -/
def toolSlug : ToolType → String
  | .sourceFinder => "SourceFinder"
  | .contradictionChecker => "ContradictionChecker"
  | .dataAnalysis => "DataAnalysis"
  | .claimExtractor => "ClaimExtractor"
  | .aiLiteratureReview => "AILiteratureReview"
  | .referenceManagement => "Reference&CitationManagement"
  | .exportTXT => "ExportTXT"
  | .exportDOC => "ExportDOC"

/-- Paste id remapping over the buffered nodes: each node receives the
fresh id mkId oldId counter with the counter incremented per node, the
position shifted by (40, 40), and data.id synchronized; the old-to-new
table is accumulated. -/
def pasteOneNode (n : WNode) (c : Nat) : WNode :=
  let newId := mkId n.id c
  { n with
    id := newId
    position := { x := n.position.x + 40, y := n.position.y + 40 }
    data := { n.data with id := newId } }

def pasteNodesRemap : List WNode → Nat → List WNode × List (String × String) × Nat
  | [], c => ([], [], c)
  | n :: rest, c =>
      let r := pasteNodesRemap rest (c + 1)
      (pasteOneNode n c :: r.1, (n.id, mkId n.id c) :: r.2.1, r.2.2)

/-- oldToNew[k]; a missing key yields JS undefined, modelled by a marker
(buffered edges always have both endpoints in the buffer, so the marker is
unreachable in well-formed buffers). -/
def remapLookup (m : List (String × String)) (k : String) : String :=
  (m.lookup k).getD "undefined"

/-- Paste id remapping over the buffered edges: fresh edge id
mkId "e" counter, endpoints re-pointed through the remap table. -/
def pasteOneEdge (m : List (String × String)) (e : WEdge) (c : Nat) : WEdge :=
  { e with
    id := mkId "e" c
    source := remapLookup m e.source
    target := remapLookup m e.target }

def pasteEdgesRemap (m : List (String × String)) :
    List WEdge → Nat → List WEdge × Nat
  | [], c => ([], c)
  | e :: rest, c =>
      let r := pasteEdgesRemap m rest (c + 1)
      (pasteOneEdge m e c :: r.1, r.2)

/-- The editing command surface: onDrop, the keyboard commands of
handleGlobalKey and handleDelete, preset application, and document load. -/
inductive EditOp where
  | drop (t : ToolType) (pos : Pos)
  | copy
  | cut
  | paste
  | selectAll
  | deleteSel
  | undo
  | redo
  | presetLoad (pnodes : List WNode) (pedges : List WEdge)
  | docLoad (doc : Option LoadedDoc)

/-- The fresh node minted by onDrop: id = slug_counter, config {},
status pending. -/
def dropNode (t : ToolType) (pos : Pos) (c : Nat) : WNode :=
  { id := mkId (toolSlug t) c
    position := pos
    data := { id := mkId (toolSlug t) c
              label := toolLabel t
              toolType := t
              config := {}
              status := .pending } }

/-- One editing step of the WorkflowBuilder component. -/
def stepEdit (st : BuilderState) : EditOp → BuilderState
  | .drop t pos =>
      { st with
        nodes := st.nodes ++ [dropNode t pos st.idCounter]
        idCounter := st.idCounter + 1 }
  | .copy =>
      if st.selection = [] then st
      else
        let ids := st.selection
        { st with
          copyBuffer := some
            (st.nodes.filter (fun n => ids.contains n.id),
             st.edges.filter (fun e => ids.contains e.source ∧ ids.contains e.target)) }
  | .cut =>
      if st.selection = [] then st
      else
        let ids := st.selection
        let nodesToCut := st.nodes.filter (fun n => ids.contains n.id)
        let edgesToCut := st.edges.filter (fun e => ids.contains e.source ∧ ids.contains e.target)
        { st with
          copyBuffer := some (nodesToCut, edgesToCut)
          lastAction := some { type := .cut, nodes := nodesToCut, edges := edgesToCut }
          nodes := st.nodes.filter (fun n => ¬ ids.contains n.id)
          edges := st.edges.filter (fun e => ¬ ids.contains e.source ∧ ¬ ids.contains e.target)
          selection := [] }
  | .paste =>
      match st.copyBuffer with
      | none => st
      | some buf =>
          let pn := pasteNodesRemap buf.1 st.idCounter
          let newNodes := pn.1
          let pe := pasteEdgesRemap pn.2.1 buf.2 pn.2.2
          let newEdges := pe.1
          { st with
            nodes := st.nodes ++ newNodes
            edges := st.edges ++ newEdges
            lastAction := some { type := .paste, nodes := newNodes, edges := newEdges }
            selection := newNodes.map (fun (n : WNode) => n.id)
            idCounter := pe.2 }
  | .selectAll => { st with selection := st.nodes.map (fun (n : WNode) => n.id) }
  | .deleteSel =>
      if st.selection = [] then st
      else
        let ids := st.selection
        { st with
          nodes := st.nodes.filter (fun n => ¬ ids.contains n.id)
          edges := st.edges.filter (fun e => ¬ ids.contains e.source ∧ ¬ ids.contains e.target)
          selection := [] }
  | .undo =>
      match st.lastAction with
      | none => st
      | some a =>
          let moved :=
            match a.type with
            | .paste =>
                let ids := a.nodes.map (fun (n : WNode) => n.id)
                let eids := a.edges.map (fun (e : WEdge) => e.id)
                { st with
                  nodes := st.nodes.filter (fun n => ¬ ids.contains n.id)
                  edges := st.edges.filter (fun e => ¬ eids.contains e.id) }
            | .cut =>
                { st with
                  nodes := st.nodes ++ a.nodes
                  edges := st.edges ++ a.edges }
          { moved with
            redoAction := some a
            lastAction := none
            selection := [] }
  | .redo =>
      match st.redoAction with
      | none => st
      | some a =>
          let moved :=
            match a.type with
            | .paste =>
                { st with
                  nodes := st.nodes ++ a.nodes
                  edges := st.edges ++ a.edges }
            | .cut =>
                let ids := a.nodes.map (fun (n : WNode) => n.id)
                let eids := a.edges.map (fun (e : WEdge) => e.id)
                { st with
                  nodes := st.nodes.filter (fun n => ¬ ids.contains n.id)
                  edges := st.edges.filter (fun e => ¬ eids.contains e.id) }
          { moved with
            lastAction := some a
            redoAction := none }
  | .presetLoad pnodes pedges =>
      { st with
        nodes := pnodes
        edges := pedges }
  | .docLoad doc => (onLoadWorkflow st doc).2

/-- Fold a sequence of editing operations over a state. -/
def applyEdits (st : BuilderState) : List EditOp → BuilderState
  | [] => st
  | op :: rest => applyEdits (stepEdit st op) rest

/-- The component's initial state: empty canvas, idCounter = 1. -/
def initialBuilderState : BuilderState :=
  { nodes := [], edges := [] }

/-- Numeric value of a decimal digit character. -/
def digitVal (c : Char) : Nat :=
  c.toNat - 48

/-- Value of a most-significant-first decimal digit list. -/
def digitsVal (cs : List Char) : Nat :=
  cs.foldl (fun a c => 10 * a + digitVal c) 0

/-- The ids of a node list. -/
def nodeIds (ns : List WNode) : List String :=
  ns.map (fun (n : WNode) => n.id)

/-- The ids of an edge list. -/
def edgeIds (es : List WEdge) : List String :=
  es.map (fun (e : WEdge) => e.id)

/-- The statuses of a node list, in order. -/
def statuses (ns : List WNode) : List Status :=
  ns.map (fun (n : WNode) => n.data.status)

/-- Everything about a node except its status, as one tuple, for frame
statements. -/
def nodeNonStatusView (n : WNode) :
    String × Pos × String × String × ToolType × ToolConfig × Option Output × Option String :=
  (n.id, n.position, n.data.id, n.data.label, n.data.toolType, n.data.config,
   n.data.output, n.data.sessionId)

/-- Whether an editing operation loads a whole document or preset into the
graph (these bypass id generation). -/
def EditOp.isLoad : EditOp → Bool
  | .presetLoad _ _ => true
  | .docLoad _ => true
  | _ => false

/-- An id is fresh-bounded by c when every way of reading it as a minted id
prefix_counter has counter below c. -/
def FreshId (c : Nat) (id : String) : Prop :=
  ∀ o k, id = mkId o k → k < c

/-- All ids of a list are fresh-bounded by c. -/
def FreshIds (c : Nat) (ids : List String) : Prop :=
  ∀ id ∈ ids, FreshId c id

/-- Invariant carried for a recorded undo/redo action: its node ids are
fresh-bounded and duplicate-free, and when the action is of the kind that a
later undo/redo will re-insert (cut in the lastAction slot, paste in the
redoAction slot), its node ids are absent from the graph. -/
def actionInv (c : Nat) (graphIds : List String) (reinsertKind : ActionType) :
    Option EAction → Prop
  | none => True
  | some a =>
      FreshIds c (nodeIds a.nodes) ∧ (nodeIds a.nodes).Nodup ∧
      (a.type = reinsertKind → ∀ id ∈ nodeIds a.nodes, id ∉ graphIds)

/-- The id-uniqueness invariant of the editor state, preserved by every
non-load editing operation. -/
structure EditInv (st : BuilderState) : Prop where
  nodup : (nodeIds st.nodes).Nodup
  fresh : FreshIds st.idCounter (nodeIds st.nodes)
  lastA : actionInv st.idCounter (nodeIds st.nodes) .cut st.lastAction
  redoA : actionInv st.idCounter (nodeIds st.nodes) .paste st.redoAction

/-- A minimal node for concrete scenarios. -/
def sampleNode (i : String) (t : ToolType) (cfg : ToolConfig) (st : Status)
    (out : Option Output) : WNode :=
  { id := i
    position := { x := 0, y := 0 }
    data := { id := i
              label := toolLabel t
              toolType := t
              config := cfg
              status := st
              output := out } }

/-- A graph whose single node has already succeeded, for the stop() claims. -/
def succeededState : BuilderState :=
  { nodes := [sampleNode "A" .sourceFinder {} .success (some (.str "done"))]
    edges := []
    runningWorkflow := true
    workflowExecutionRefs := [7] }

/-- A two-node cyclic graph, all statuses pending: every node has an
incoming edge, so run() finds no entry point. -/
def cyclicState : BuilderState :=
  { nodes := [sampleNode "A" .sourceFinder {} .pending none,
              sampleNode "B" .claimExtractor {} .pending none]
    edges := [{ id := "e1", source := "A", target := "B" },
              { id := "e2", source := "B", target := "A" }] }

/-- A two-paper list for the adaptation scenarios. -/
def twoPapers : List Paper :=
  [{ title := "Paper One", authors := some ["Ada", "Bob"], published := some "2020" },
   { title := "Paper Two", authors := some ["Cyd"], published := some "2021" }]

/-- Predecessor whose output contains a list of papers but whose tool type
is Claim Extractor (not Source Finder). -/
def papersFromExtractorGraph : List WNode :=
  [sampleNode "a" .claimExtractor {} .success
     (some (.obj (some twoPapers) none none none)),
   sampleNode "b" .claimExtractor {} .pending none]

def abEdge : List WEdge :=
  [{ id := "e1", source := "a", target := "b" }]

/-- Predecessor with a plain text output and a consumer Claim Extractor
whose own config.prompt is non-empty. -/
def configWinsGraph : List WNode :=
  [sampleNode "a" .sourceFinder {} .success
     (some (.obj none none none (some "y"))),
   sampleNode "b" .claimExtractor { prompt := some "x" } .pending none]

/-- A lone Reference & Citation Management node with no predecessor and an
entirely empty config. -/
def lonelyReferenceGraph : List WNode :=
  [sampleNode "r" .referenceManagement {} .pending none]

/-- A workflow document carrying two nodes with the same id. -/
def dupIdDoc : LoadedDoc :=
  { nodes := some [sampleNode "A" .sourceFinder {} .pending none,
                   sampleNode "A" .claimExtractor {} .pending none]
    edges := some [] }

/-- A state in which the next minted paste id collides with an existing
node id: the graph already holds a node named A_1 (as a loaded document may
contain), the buffer holds a node named A, and the counter is 1. -/
def collidingPasteState : BuilderState :=
  { nodes := [sampleNode "A_1" .sourceFinder {} .pending none]
    edges := []
    copyBuffer := some ([sampleNode "A" .sourceFinder {} .pending none], [])
    idCounter := 1 }

/-- A state in which pasting is fresh: minted ids avoid the graph. -/
def freshPasteState : BuilderState :=
  { nodes := [sampleNode "B" .sourceFinder {} .pending none]
    edges := []
    copyBuffer := some ([sampleNode "B" .sourceFinder {} .pending none], [])
    idCounter := 1 }

/-- Predecessor of Source Finder type whose output contains a list of
papers, feeding a Claim Extractor consumer. -/
def papersFromFinderGraph : List WNode :=
  [sampleNode "a" .sourceFinder {} .success
     (some (.obj (some twoPapers) none none none)),
   sampleNode "b" .claimExtractor {} .pending none]

/-- A lone Claim Extractor node with no predecessor and an empty config. -/
def lonelyExtractorGraph : List WNode :=
  [sampleNode "c" .claimExtractor {} .pending none]


theorem digitChar_ne_underscore (r : Nat) : digitChar r ≠ '_' := by
  unfold digitChar
  split <;> decide

theorem digitVal_digitChar (r : Nat) (h : r < 10) : digitVal (digitChar r) = r := by
  interval_cases r <;> decide

theorem natStrAux_append (n : Nat) :
    ∀ fuel acc, n ≤ fuel → natStrAux fuel n acc = natStrAux fuel n [] ++ acc := by
  induction n using Nat.strong_induction_on with
  | _ n ih =>
    intro fuel acc hfuel
    match fuel with
    | 0 => simp [natStrAux]
    | f + 1 =>
      by_cases h : n < 10
      · simp [natStrAux, h]
      · simp only [natStrAux, h, if_false]
        have hlt : n / 10 < n := Nat.div_lt_self (by omega) (by omega)
        have hfl : n / 10 ≤ f := by omega
        rw [ih (n / 10) hlt f (digitChar (n % 10) :: acc) hfl,
            ih (n / 10) hlt f [digitChar (n % 10)] hfl]
        simp

theorem digitsVal_append_singleton (xs : List Char) (c : Char) :
    digitsVal (xs ++ [c]) = 10 * digitsVal xs + digitVal c := by
  simp [digitsVal, List.foldl_append]

theorem digitsVal_natStrAux (n : Nat) :
    ∀ fuel, n ≤ fuel → digitsVal (natStrAux fuel n []) = n := by
  induction n using Nat.strong_induction_on with
  | _ n ih =>
    intro fuel hfuel
    match fuel with
    | 0 =>
      have h0 : n = 0 := by omega
      subst h0
      simp [natStrAux, digitsVal, digitVal, digitChar]
    | f + 1 =>
      by_cases h : n < 10
      · simp only [natStrAux, h, if_true]
        simp [digitsVal, digitVal_digitChar n h]
      · simp only [natStrAux, h, if_false]
        have hlt : n / 10 < n := Nat.div_lt_self (by omega) (by omega)
        have hfl : n / 10 ≤ f := by omega
        rw [natStrAux_append (n / 10) f [digitChar (n % 10)] hfl,
            digitsVal_append_singleton, ih (n / 10) hlt f hfl,
            digitVal_digitChar (n % 10) (Nat.mod_lt n (by omega))]
        omega

theorem natStr_inj {m n : Nat} (h : natStr m = natStr n) : m = n := by
  have hd : natStrAux m m [] = natStrAux n n [] := by
    have := congrArg String.data h
    simpa [natStr] using this
  have := congrArg digitsVal hd
  rwa [digitsVal_natStrAux m m (le_refl m), digitsVal_natStrAux n n (le_refl n)] at this

theorem mem_natStrAux (n : Nat) :
    ∀ fuel acc c, c ∈ natStrAux fuel n acc → c ∈ acc ∨ ∃ r, c = digitChar r := by
  induction n using Nat.strong_induction_on with
  | _ n ih =>
    intro fuel acc c hc
    match fuel with
    | 0 =>
      simp only [natStrAux, List.mem_cons] at hc
      rcases hc with h1 | h1
      · exact Or.inr ⟨n, h1⟩
      · exact Or.inl h1
    | f + 1 =>
      by_cases h : n < 10
      · simp only [natStrAux, h, if_true, List.mem_cons] at hc
        rcases hc with h1 | h1
        · exact Or.inr ⟨n, h1⟩
        · exact Or.inl h1
      · simp only [natStrAux, h, if_false] at hc
        have hlt : n / 10 < n := Nat.div_lt_self (by omega) (by omega)
        rcases ih (n / 10) hlt f _ c hc with h1 | h1
        · rcases List.mem_cons.mp h1 with h2 | h2
          · exact Or.inr ⟨n % 10, h2⟩
          · exact Or.inl h2
        · exact Or.inr h1

theorem underscore_not_mem_natStr (n : Nat) : '_' ∉ (natStr n).data := by
  intro hc
  rcases mem_natStrAux n n [] '_' hc with h | ⟨r, hr⟩
  · simp at h
  · exact digitChar_ne_underscore r hr.symm

theorem append_underscore_inj (xs : List Char) :
    ∀ (ys as bs : List Char), '_' ∉ xs → '_' ∉ ys →
      xs ++ '_' :: as = ys ++ '_' :: bs → xs = ys ∧ as = bs := by
  induction xs with
  | nil =>
    intro ys as bs _ hy h
    cases ys with
    | nil => simpa using h
    | cons y ys2 =>
      simp only [List.nil_append, List.cons_append, List.cons.injEq] at h
      exact absurd (h.1 ▸ List.mem_cons_self y ys2) hy
  | cons x xs2 ih =>
    intro ys as bs hx hy h
    cases ys with
    | nil =>
      simp only [List.nil_append, List.cons_append, List.cons.injEq] at h
      exact absurd (h.1 ▸ List.mem_cons_self x xs2) hx
    | cons y ys2 =>
      simp only [List.cons_append, List.cons.injEq] at h
      obtain ⟨hxy, hrest⟩ := h
      have hx2 : '_' ∉ xs2 := fun hm => hx (List.mem_cons_of_mem x hm)
      have hy2 : '_' ∉ ys2 := fun hm => hy (List.mem_cons_of_mem y hm)
      obtain ⟨h1, h2⟩ := ih ys2 as bs hx2 hy2 hrest
      exact ⟨by rw [hxy, h1], h2⟩

theorem mkId_counter_inj {o o2 : String} {k m : Nat}
    (h : mkId o k = mkId o2 m) : k = m := by
  have hd := congrArg String.data h
  have hu : ("_" : String).data = ['_'] := rfl
  simp only [mkId, String.data_append, hu, List.append_assoc, List.cons_append,
    List.nil_append] at hd
  have hrev := congrArg List.reverse hd
  simp only [List.reverse_append, List.reverse_cons] at hrev
  have hns : (natStr k).data.reverse ++ '_' :: (String.data o).reverse
      = (natStr m).data.reverse ++ '_' :: (String.data o2).reverse := by
    simpa [List.append_assoc] using hrev
  have hnk : '_' ∉ (natStr k).data.reverse := by
    intro hm
    exact underscore_not_mem_natStr k (List.mem_reverse.mp hm)
  have hnm : '_' ∉ (natStr m).data.reverse := by
    intro hm
    exact underscore_not_mem_natStr m (List.mem_reverse.mp hm)
  obtain ⟨h1, _⟩ := append_underscore_inj _ _ _ _ hnk hnm hns
  have hdata : (natStr k).data = (natStr m).data :=
    List.reverse_injective h1
  exact natStr_inj (String.ext hdata)

theorem freshId_mono {c c2 : Nat} (h : c ≤ c2) {id : String}
    (hf : FreshId c id) : FreshId c2 id :=
  fun o k he => lt_of_lt_of_le (hf o k he) h

theorem freshIds_mono {c c2 : Nat} (h : c ≤ c2) {ids : List String}
    (hf : FreshIds c ids) : FreshIds c2 ids :=
  fun id hm => freshId_mono h (hf id hm)

theorem freshIds_subset {c : Nat} {ids ids2 : List String}
    (hsub : ∀ id ∈ ids2, id ∈ ids) (hf : FreshIds c ids) : FreshIds c ids2 :=
  fun id hm => hf id (hsub id hm)

theorem mkId_freshId {o : String} {k c : Nat} (h : k < c) : FreshId c (mkId o k) := by
  intro o2 k2 he
  have := mkId_counter_inj he
  omega

theorem freshId_ne_mkId {c : Nat} {id : String} (hf : FreshId c id)
    (o : String) {k : Nat} (h : c ≤ k) : id ≠ mkId o k := by
  intro he
  have := hf o k he
  omega

theorem mem_nodeIds_filter {p : WNode → Bool} {l : List WNode} {id : String}
    (h : id ∈ nodeIds (l.filter p)) : id ∈ nodeIds l := by
  simp only [nodeIds, List.mem_map] at h ⊢
  obtain ⟨n, hn, hid⟩ := h
  exact ⟨n, (List.mem_filter.mp hn).1, hid⟩

theorem nodup_nodeIds_filter {p : WNode → Bool} {l : List WNode}
    (h : (nodeIds l).Nodup) : (nodeIds (l.filter p)).Nodup :=
  List.Nodup.sublist (List.Sublist.map _ (List.filter_sublist l)) h

theorem nodeIds_append (a b : List WNode) :
    nodeIds (a ++ b) = nodeIds a ++ nodeIds b := by
  simp [nodeIds]

theorem pasteNodesRemap_counter (l : List WNode) (c : Nat) :
    (pasteNodesRemap l c).2.2 = c + l.length := by
  induction l generalizing c with
  | nil => simp [pasteNodesRemap]
  | cons n rest ih =>
    simp only [pasteNodesRemap, List.length_cons]
    rw [ih (c + 1)]
    omega

theorem pasteNodesRemap_ids (l : List WNode) (c : Nat) :
    ∀ id ∈ nodeIds (pasteNodesRemap l c).1,
      ∃ o k, c ≤ k ∧ k < c + l.length ∧ id = mkId o k := by
  induction l generalizing c with
  | nil =>
    intro id hm
    simp [pasteNodesRemap, nodeIds] at hm
  | cons n rest ih =>
    intro id hm
    simp only [pasteNodesRemap, nodeIds, List.map_cons, List.mem_cons] at hm
    rcases hm with h | h
    · refine ⟨n.id, c, le_refl c, ?_, ?_⟩
      · simp only [List.length_cons]
        omega
      · simpa [pasteOneNode] using h
    · obtain ⟨o, k, h1, h2, h3⟩ := ih (c + 1) id h
      refine ⟨o, k, by omega, ?_, h3⟩
      simp only [List.length_cons]
      omega

theorem pasteNodesRemap_nodup (l : List WNode) (c : Nat) :
    (nodeIds (pasteNodesRemap l c).1).Nodup := by
  induction l generalizing c with
  | nil => simp [pasteNodesRemap, nodeIds]
  | cons n rest ih =>
    simp only [pasteNodesRemap, nodeIds, List.map_cons, List.nodup_cons]
    refine ⟨?_, ih (c + 1)⟩
    intro hm
    obtain ⟨o, k, h1, h2, h3⟩ := pasteNodesRemap_ids rest (c + 1) _ hm
    have hpq : (pasteOneNode n c).id = mkId n.id c := by
      simp [pasteOneNode]
    rw [hpq] at h3
    have := mkId_counter_inj h3
    omega

theorem pasteEdgesRemap_counter (m : List (String × String)) (l : List WEdge) (c : Nat) :
    (pasteEdgesRemap m l c).2 = c + l.length := by
  induction l generalizing c with
  | nil => simp [pasteEdgesRemap]
  | cons e rest ih =>
    simp only [pasteEdgesRemap, List.length_cons]
    rw [ih (c + 1)]
    omega

theorem mem_nodeIds_filter_keep {sel : List String} {l : List WNode} {id : String}
    (h : id ∈ nodeIds (l.filter (fun n => sel.contains n.id))) : id ∈ sel := by
  simp only [nodeIds, List.mem_map] at h
  obtain ⟨n, hn, hid⟩ := h
  have hc := (List.mem_filter.mp hn).2
  rw [hid] at hc
  exact List.elem_iff.mp hc

theorem mem_nodeIds_filter_drop {sel : List String} {l : List WNode} {id : String}
    (h : id ∈ nodeIds (l.filter (fun n => ¬ sel.contains n.id))) : id ∉ sel := by
  simp only [nodeIds, List.mem_map] at h
  obtain ⟨n, hn, hid⟩ := h
  have hc := (List.mem_filter.mp hn).2
  rw [hid] at hc
  simp only [decide_eq_true_eq, Bool.not_eq_true] at hc
  intro hmem
  have h2 : sel.contains id = true := List.elem_iff.mpr hmem
  rw [h2] at hc
  exact absurd hc (by simp)

theorem actionInv_grow {c c2 : Nat} {G newIds : List String} {kind : ActionType}
    {act : Option EAction}
    (h : actionInv c G kind act) (hc : c ≤ c2)
    (hnew : ∀ id ∈ newIds, ∃ o k, c ≤ k ∧ id = mkId o k) :
    actionInv c2 (G ++ newIds) kind act := by
  cases act with
  | none => trivial
  | some a =>
    obtain ⟨h1, h2, h3⟩ := h
    refine ⟨freshIds_mono hc h1, h2, ?_⟩
    intro ht id hm hmem
    rcases List.mem_append.mp hmem with hg | hn
    · exact h3 ht id hm hg
    · obtain ⟨o, k, hk, he⟩ := hnew id hn
      exact freshId_ne_mkId (h1 id hm) o hk he

theorem actionInv_shrink {c : Nat} {G G2 : List String} {kind : ActionType}
    {act : Option EAction}
    (h : actionInv c G kind act) (hsub : ∀ id ∈ G2, id ∈ G) :
    actionInv c G2 kind act := by
  cases act with
  | none => trivial
  | some a =>
    obtain ⟨h1, h2, h3⟩ := h
    exact ⟨h1, h2, fun ht id hm hmem => h3 ht id hm (hsub id hmem)⟩

theorem stepEdit_inv {st : BuilderState} (op : EditOp) (hinv : EditInv st)
    (hop : op.isLoad = false) : EditInv (stepEdit st op) := by
  obtain ⟨hnd, hfr, hla, hra⟩ := hinv
  cases op with
  | drop t pos =>
      simp only [stepEdit]
      refine ⟨?_, ?_, ?_, ?_⟩
      · rw [nodeIds_append, List.nodup_append]
        refine ⟨hnd, List.nodup_singleton _, ?_⟩
        intro a ha hb
        simp only [dropNode, nodeIds, List.map_cons, List.map_nil,
          List.mem_singleton] at hb
        exact freshId_ne_mkId (hfr a ha) (toolSlug t) (le_refl _) hb
      · rw [nodeIds_append]
        intro id hm
        rcases List.mem_append.mp hm with h | h
        · exact freshId_mono (by dsimp only; omega) (hfr id h)
        · simp only [dropNode, nodeIds, List.map_cons, List.map_nil,
            List.mem_singleton] at h
          rw [h]
          exact mkId_freshId (by dsimp only; omega)
      · rw [nodeIds_append]
        refine actionInv_grow hla (by dsimp only; omega) ?_
        intro id hm
        simp only [dropNode, nodeIds, List.map_cons, List.map_nil,
          List.mem_singleton] at hm
        exact ⟨toolSlug t, st.idCounter, le_refl _, hm⟩
      · rw [nodeIds_append]
        refine actionInv_grow hra (by dsimp only; omega) ?_
        intro id hm
        simp only [dropNode, nodeIds, List.map_cons, List.map_nil,
          List.mem_singleton] at hm
        exact ⟨toolSlug t, st.idCounter, le_refl _, hm⟩
  | copy =>
      simp only [stepEdit]
      split
      · exact ⟨hnd, hfr, hla, hra⟩
      · exact ⟨hnd, hfr, hla, hra⟩
  | cut =>
      simp only [stepEdit]
      split
      · exact ⟨hnd, hfr, hla, hra⟩
      · refine ⟨nodup_nodeIds_filter hnd,
          freshIds_subset (fun id hm => mem_nodeIds_filter hm) hfr, ?_, ?_⟩
        · refine ⟨freshIds_subset (fun id hm => mem_nodeIds_filter hm) hfr,
            nodup_nodeIds_filter hnd, ?_⟩
          intro _ id hm hmem
          exact absurd (mem_nodeIds_filter_keep hm) (mem_nodeIds_filter_drop hmem)
        · exact actionInv_shrink hra (fun id hm => mem_nodeIds_filter hm)
  | paste =>
      simp only [stepEdit]
      split
      · exact ⟨hnd, hfr, hla, hra⟩
      · rename_i buf _
        have hc1 := pasteNodesRemap_counter buf.1 st.idCounter
        have hc2 := pasteEdgesRemap_counter (pasteNodesRemap buf.1 st.idCounter).2.1
          buf.2 (pasteNodesRemap buf.1 st.idCounter).2.2
        have hcle : st.idCounter ≤
            (pasteEdgesRemap (pasteNodesRemap buf.1 st.idCounter).2.1 buf.2
              (pasteNodesRemap buf.1 st.idCounter).2.2).2 := by
          rw [hc2, hc1]
          omega
        have hnewFresh : FreshIds
            ((pasteEdgesRemap (pasteNodesRemap buf.1 st.idCounter).2.1 buf.2
              (pasteNodesRemap buf.1 st.idCounter).2.2).2)
            (nodeIds (pasteNodesRemap buf.1 st.idCounter).1) := by
          intro id hm
          obtain ⟨o, k, h1, h2, h3⟩ := pasteNodesRemap_ids buf.1 st.idCounter id hm
          rw [h3]
          refine mkId_freshId ?_
          rw [hc2, hc1]
          omega
        refine ⟨?_, ?_, ?_, ?_⟩
        · rw [nodeIds_append, List.nodup_append]
          refine ⟨hnd, pasteNodesRemap_nodup buf.1 st.idCounter, ?_⟩
          intro a ha hb
          obtain ⟨o, k, h1, h2, h3⟩ := pasteNodesRemap_ids buf.1 st.idCounter a hb
          exact freshId_ne_mkId (hfr a ha) o h1 h3
        · rw [nodeIds_append]
          intro id hm
          rcases List.mem_append.mp hm with h | h
          · exact freshId_mono hcle (hfr id h)
          · exact hnewFresh id h
        · refine ⟨hnewFresh, pasteNodesRemap_nodup buf.1 st.idCounter, ?_⟩
          intro ht
          simp at ht
        · rw [nodeIds_append]
          refine actionInv_grow hra hcle ?_
          intro id hm
          obtain ⟨o, k, h1, _, h3⟩ := pasteNodesRemap_ids buf.1 st.idCounter id hm
          exact ⟨o, k, h1, h3⟩
  | selectAll =>
      exact ⟨hnd, hfr, hla, hra⟩
  | deleteSel =>
      simp only [stepEdit]
      split
      · exact ⟨hnd, hfr, hla, hra⟩
      · refine ⟨nodup_nodeIds_filter hnd,
          freshIds_subset (fun id hm => mem_nodeIds_filter hm) hfr,
          actionInv_shrink hla (fun id hm => mem_nodeIds_filter hm),
          actionInv_shrink hra (fun id hm => mem_nodeIds_filter hm)⟩
  | undo =>
      simp only [stepEdit]
      split
      · exact ⟨hnd, hfr, hla, hra⟩
      · rename_i a heq
        rw [heq] at hla
        simp only [actionInv] at hla
        obtain ⟨ha1, ha2, ha3⟩ := hla
        cases htype : a.type with
        | paste =>
            simp only [htype]
            refine ⟨nodup_nodeIds_filter hnd,
              freshIds_subset (fun id hm => mem_nodeIds_filter hm) hfr,
              trivial, ?_⟩
            refine ⟨ha1, ha2, ?_⟩
            intro _ id hm hmem
            exact absurd (by
              simpa [nodeIds] using hm) (mem_nodeIds_filter_drop hmem)
        | cut =>
            simp only [htype]
            have hdisj := ha3 htype
            refine ⟨?_, ?_, trivial, ?_⟩
            · rw [nodeIds_append, List.nodup_append]
              refine ⟨hnd, ha2, ?_⟩
              intro x hx hx2
              exact hdisj x hx2 hx
            · rw [nodeIds_append]
              intro id hm
              rcases List.mem_append.mp hm with h | h
              · exact hfr id h
              · exact ha1 id h
            · refine ⟨ha1, ha2, ?_⟩
              intro ht
              rw [htype] at ht
              exact absurd ht (by decide)
  | redo =>
      simp only [stepEdit]
      split
      · exact ⟨hnd, hfr, hla, hra⟩
      · rename_i a heq
        rw [heq] at hra
        simp only [actionInv] at hra
        obtain ⟨ha1, ha2, ha3⟩ := hra
        cases htype : a.type with
        | paste =>
            simp only [htype]
            have hdisj := ha3 htype
            refine ⟨?_, ?_, ?_, trivial⟩
            · rw [nodeIds_append, List.nodup_append]
              refine ⟨hnd, ha2, ?_⟩
              intro x hx hx2
              exact hdisj x hx2 hx
            · rw [nodeIds_append]
              intro id hm
              rcases List.mem_append.mp hm with h | h
              · exact hfr id h
              · exact ha1 id h
            · refine ⟨ha1, ha2, ?_⟩
              intro ht
              rw [htype] at ht
              exact absurd ht (by decide)
        | cut =>
            simp only [htype]
            refine ⟨nodup_nodeIds_filter hnd,
              freshIds_subset (fun id hm => mem_nodeIds_filter hm) hfr, ?_, trivial⟩
            refine ⟨ha1, ha2, ?_⟩
            intro _ id hm hmem
            exact absurd (by
              simpa [nodeIds] using hm) (mem_nodeIds_filter_drop hmem)
  | presetLoad pnodes pedges =>
      simp [EditOp.isLoad] at hop
  | docLoad doc =>
      simp [EditOp.isLoad] at hop

theorem applyEdits_inv (ops : List EditOp) :
    ∀ st, EditInv st → (∀ op ∈ ops, op.isLoad = false) →
      EditInv (applyEdits st ops) := by
  induction ops with
  | nil =>
    intro st h _
    exact h
  | cons op rest ih =>
    intro st h hops
    exact ih _ (stepEdit_inv op h (hops op (List.mem_cons_self op rest)))
      (fun o ho => hops o (List.mem_cons_of_mem op ho))

theorem initialBuilderState_inv : EditInv initialBuilderState :=
  ⟨by simp [initialBuilderState, nodeIds],
   by
     intro id hm
     simp [initialBuilderState, nodeIds] at hm,
   trivial, trivial⟩

theorem statuses_map_setStatus (s : Status) (ns : List WNode) :
    statuses (ns.map (setStatus s)) = List.replicate ns.length s := by
  have h : ∀ n : WNode, (setStatus s n).data.status = s := fun n => rfl
  simp [statuses, List.map_map, Function.comp, h]
  exact List.map_const' ns s

theorem view_map_setStatus (s : Status) (ns : List WNode) :
    (ns.map (setStatus s)).map nodeNonStatusView = ns.map nodeNonStatusView := by
  have h : ∀ n : WNode, nodeNonStatusView (setStatus s n) = nodeNonStatusView n :=
    fun n => rfl
  simp [List.map_map, Function.comp, h]

theorem jsOr_ne_empty (a : Option String) {b : String} (hb : b ≠ "") :
    jsOr a b ≠ "" := by
  cases a with
  | none => exact hb
  | some s =>
    by_cases h : s = "" <;> simp [jsOr, h]
    exact hb

theorem filter_append_eq_left {α : Type} (p : α → Bool) (a b : List α)
    (ha : ∀ x ∈ a, p x = true) (hb : ∀ x ∈ b, ¬ p x = true) :
    (a ++ b).filter p = a := by
  rw [List.filter_append, List.filter_eq_self.mpr ha,
    List.filter_eq_nil_iff.mpr hb, List.append_nil]

theorem filter_not_contains_key {α : Type} (key : α → String) (a b : List α)
    (h : ∀ id ∈ b.map key, id ∉ a.map key) :
    (a ++ b).filter (fun x => ¬ (b.map key).contains (key x)) = a := by
  apply filter_append_eq_left
  · intro x hx
    simp only [decide_eq_true_eq]
    intro hc
    have hmemb : key x ∈ b.map key := List.elem_iff.mp hc
    exact h (key x) hmemb (List.mem_map_of_mem key hx)
  · intro x hx
    simp only [decide_eq_true_eq, not_not]
    exact List.elem_iff.mpr (List.mem_map_of_mem key hx)

/-- C1 counterexample: the claim asserts that a node whose status was
success keeps it across stop(); on succeededState, whose only node holds
status success, stop() resets that node to pending. -/
theorem C1_counterexample_stop_resets_success :
    statuses succeededState.nodes = [Status.success] ∧
    statuses (onStopWorkflow succeededState).nodes = [Status.pending] := by
  decide

/-- C1 (amended): stop() clears every scheduled timer, transitions the run
to idle, and forces EVERY node back to pending — including nodes whose
status was already terminal (success or error). -/
theorem C1_stop_clears_timers_resets_all_to_pending (st : BuilderState) :
    (onStopWorkflow st).workflowExecutionRefs = [] ∧
    (onStopWorkflow st).runningWorkflow = false ∧
    statuses (onStopWorkflow st).nodes = List.replicate st.nodes.length Status.pending :=
  ⟨rfl, rfl, statuses_map_setStatus .pending st.nodes⟩

/-- C9: stop() modifies only each node's status field: id, position,
data.id, label, toolType, config, output and sessionId of every node, and
the entire edge set, are identical before and after stop(). -/
theorem C9_stop_modifies_only_status (st : BuilderState) :
    (onStopWorkflow st).edges = st.edges ∧
    ((onStopWorkflow st).nodes).map nodeNonStatusView = st.nodes.map nodeNonStatusView :=
  ⟨rfl, view_map_setStatus .pending st.nodes⟩

/-- C2 counterexample: on a cyclic two-node graph with no root and all
statuses pending, run() aborts reporting noRoots but leaves both nodes
marked running — the graph is not left unchanged as claimed. -/
theorem C2_counterexample_abort_marks_running :
    (onRunWorkflow cyclicState).1 = RunOutcome.noRoots ∧
    statuses cyclicState.nodes = [Status.pending, Status.pending] ∧
    statuses (onRunWorkflow cyclicState).2.nodes = [Status.running, Status.running] := by
  decide

/-- C2 (amended): run() on a non-empty graph with no root nodes aborts
reporting a no-entry-point failure and returns to idle, leaving ids,
configs, outputs and edges unchanged — but every node's status is left as
running, because the mark-all-running step precedes root computation and
is not rolled back. -/
theorem C2_no_roots_aborts_marked_running (st : BuilderState)
    (hne : ¬ st.nodes = [])
    (hroots : st.nodes.filter
      (fun node => ¬ st.edges.any (fun edge => edge.target = node.id)) = []) :
    (onRunWorkflow st).1 = RunOutcome.noRoots ∧
    (onRunWorkflow st).2.runningWorkflow = false ∧
    (onRunWorkflow st).2.edges = st.edges ∧
    statuses (onRunWorkflow st).2.nodes = List.replicate st.nodes.length Status.running ∧
    ((onRunWorkflow st).2.nodes).map nodeNonStatusView = st.nodes.map nodeNonStatusView := by
  have h1 : onRunWorkflow st =
      (RunOutcome.noRoots,
        { st with
          runningWorkflow := false
          nodes := st.nodes.map (setStatus Status.running) }) := by
    simp only [onRunWorkflow, if_neg hne, hroots, if_pos]
  rw [h1]
  exact ⟨rfl, rfl, rfl, statuses_map_setStatus .running st.nodes,
    view_map_setStatus .running st.nodes⟩

/-- C2 witness: the amended theorem applied to the concrete cyclic graph. -/
theorem C2_no_roots_aborts_marked_running_witness :
    (onRunWorkflow cyclicState).1 = RunOutcome.noRoots ∧
    statuses (onRunWorkflow cyclicState).2.nodes =
      List.replicate cyclicState.nodes.length Status.running :=
  ⟨(C2_no_roots_aborts_marked_running cyclicState (by decide) (by decide)).1,
   (C2_no_roots_aborts_marked_running cyclicState (by decide) (by decide)).2.2.2.1⟩

/-- C8: loading a workflow document missing its nodes field or its edges
field is rejected with an invalid-format report and the state is entirely
unchanged. -/
theorem C8_load_rejects_missing_fields (st : BuilderState) (d : LoadedDoc)
    (h : d.nodes = none ∨ d.edges = none) :
    (onLoadWorkflow st (some d)).1 = LoadOutcome.invalidFormat ∧
    (onLoadWorkflow st (some d)).2 = st := by
  rcases h with h | h
  · simp [onLoadWorkflow, h]
  · cases hn : d.nodes with
    | none => simp [onLoadWorkflow, hn]
    | some ns => simp [onLoadWorkflow, hn, h]

/-- C8 witness: loading a document that has nodes but lacks edges is
rejected without mutating the initial state. -/
theorem C8_load_rejects_missing_fields_witness :
    (onLoadWorkflow initialBuilderState (some { nodes := some [], edges := none })).1 =
      LoadOutcome.invalidFormat ∧
    (onLoadWorkflow initialBuilderState (some { nodes := some [], edges := none })).2 =
      initialBuilderState :=
  C8_load_rejects_missing_fields initialBuilderState
    { nodes := some [], edges := none } (Or.inr rfl)

/-- C10: saving never mutates the live graph (the component state is
returned untouched); the serialized document's node data is exactly
id/label/toolType/config with status pending — output and sessionId are
omitted by construction — and its edge list is the live edge list. -/
theorem C10_save_does_not_mutate (st : BuilderState) (now : String) :
    (onSaveWorkflow st now).2 = st ∧
    ∀ doc, (onSaveWorkflow st now).1 = some doc →
      doc.edges = st.edges ∧
      doc.nodes = st.nodes.map serializeNode ∧
      ∀ sn ∈ doc.nodes, sn.data.status = Status.pending := by
  unfold onSaveWorkflow
  by_cases h : st.nodes = []
  · rw [if_pos h]
    refine ⟨rfl, ?_⟩
    intro doc hd
    simp at hd
  · rw [if_neg h]
    refine ⟨rfl, ?_⟩
    intro doc hd
    simp only [Option.some.injEq] at hd
    subst hd
    refine ⟨rfl, rfl, ?_⟩
    intro sn hsn
    simp only [List.mem_map] at hsn
    obtain ⟨n, _, he⟩ := hsn
    rw [← he]
    rfl

/-- C10 witness: the save theorem applied to the concrete one-node state
whose node has status success and a captured output. -/
theorem C10_save_does_not_mutate_witness :
    (onSaveWorkflow succeededState "2026-01-01").2 = succeededState ∧
    ∀ sn ∈ ({ nodes := succeededState.nodes.map serializeNode
              edges := succeededState.edges
              savedAt := "2026-01-01" } : SaveDoc).nodes,
      sn.data.status = Status.pending :=
  ⟨(C10_save_does_not_mutate succeededState "2026-01-01").1,
   ((C10_save_does_not_mutate succeededState "2026-01-01").2 _ (by decide)).2.2⟩

/-- C3 counterexample: the consumer is not a review type and the resolved
predecessor's output contains a list of papers, but because the
predecessor's tool type is Claim Extractor (not Source Finder), adaptation
does not return the newline-joined paper lines — it falls through to the
JSON serialization of the whole output. -/
theorem C3_counterexample_nonfinder_papers_not_flattened :
    getInputFromPredecessorNode "b" abEdge papersFromExtractorGraph none ≠
      AdaptResult.str (joinPapers twoPapers) ∧
    getInputFromPredecessorNode "b" abEdge papersFromExtractorGraph none =
      AdaptResult.str (jsonStringify (Output.obj (some twoPapers) none none none)) := by
  decide

/-- C3 (amended): for a consumer that is not a literature-review type,
whenever the resolved predecessor's output contains a list of papers AND
the predecessor's tool type is Source Finder, input adaptation returns the
newline-joined string with one "title. authors (year)" line per paper. -/
theorem C3_papers_flatten_from_sourceFinder
    (nodeId : String) (edges : List WEdge) (nodes : List WNode)
    (ctx : Option ToolType) (e : WEdge) (pred : WNode) (ps : List Paper)
    (cl : Option (List ClaimItem)) (rv tx : Option String)
    (hctx : ¬ ctx = some ToolType.aiLiteratureReview)
    (he : edges.find? (fun e2 => e2.target = nodeId) = some e)
    (hp : nodes.find? (fun n => n.id = e.source) = some pred)
    (hout : pred.data.output = some (Output.obj (some ps) cl rv tx))
    (htool : pred.data.toolType = ToolType.sourceFinder) :
    getInputFromPredecessorNode nodeId edges nodes ctx =
      AdaptResult.str (joinPapers ps) := by
  simp [getInputFromPredecessorNode, he, hp, hout, htool, outputTruthy, hctx]

/-- C3 witness: a Source Finder predecessor with a two-paper output feeding
a Claim Extractor consumer flattens to the joined paper lines. -/
theorem C3_papers_flatten_from_sourceFinder_witness :
    getInputFromPredecessorNode "b" abEdge papersFromFinderGraph none =
      AdaptResult.str (joinPapers twoPapers) :=
  C3_papers_flatten_from_sourceFinder "b" abEdge papersFromFinderGraph none
    { id := "e1", source := "a", target := "b" }
    (sampleNode "a" .sourceFinder {} .success
      (some (.obj (some twoPapers) none none none)))
    twoPapers none none none (by decide) (by decide) (by decide) rfl rfl

/-- C4 counterexample: a Claim Extractor node with literal config.prompt
"x" and a predecessor whose adapted output is "y" sends "x" to the
endpoint: the node's own config takes precedence over the predecessor
output, contradicting the claim that predecessor output always wins. -/
theorem C4_counterexample_config_beats_predecessor :
    getInputFromPredecessorNode "b" abEdge configWinsGraph none = AdaptResult.str "y" ∧
    handleToolExecution configWinsGraph abEdge "b" =
      ExecOutcome.request "/api/claim-extractor/extract"
        (ToolRequest.claimExtractorReq "x" none) ∧
    handleToolExecution configWinsGraph abEdge "b" ≠
      ExecOutcome.request "/api/claim-extractor/extract"
        (ToolRequest.claimExtractorReq "y" none) := by
  decide

/-- C4 (amended): when a node's predecessor output adapts to a non-empty
string s, the effective input depends on the tool type: Export TXT and
Export DOC feed s (predecessor wins over config); Claim Extractor,
Contradiction Checker and Reference & Citation Management feed their own
config field first and use s only as fallback when that field is empty
(the jsOr of config field and s). -/
theorem C4_effective_input_precedence
    (nodes : List WNode) (edges : List WEdge) (nodeId : String) (node : WNode)
    (s : String)
    (hfind : nodes.find? (fun n => n.id = nodeId) = some node)
    (hadapt : getInputFromPredecessorNode nodeId edges nodes none = AdaptResult.str s)
    (hs : ¬ s = "") :
    (node.data.toolType = ToolType.exportTXT →
      handleToolExecution nodes edges nodeId =
        ExecOutcome.request "/api/export-tools/txt"
          (ToolRequest.exportTxtReq (AdaptResult.str s)
            (jsOr node.data.config.exportFileName "export.txt"))) ∧
    (node.data.toolType = ToolType.exportDOC →
      handleToolExecution nodes edges nodeId =
        ExecOutcome.request "/api/export-tools/doc"
          (ToolRequest.exportDocReq (AdaptResult.str s)
            (jsOr node.data.config.exportFileName "export.doc"))) ∧
    (node.data.toolType = ToolType.claimExtractor →
      handleToolExecution nodes edges nodeId =
        ExecOutcome.request "/api/claim-extractor/extract"
          (ToolRequest.claimExtractorReq (jsOr node.data.config.prompt s)
            node.data.config.model)) ∧
    (node.data.toolType = ToolType.contradictionChecker →
      handleToolExecution nodes edges nodeId =
        ExecOutcome.request "/api/contradiction-check/check"
          (ToolRequest.contradictionCheckerReq (jsOr node.data.config.prompt s)
            node.data.config.model)) ∧
    (node.data.toolType = ToolType.referenceManagement →
      handleToolExecution nodes edges nodeId =
        ExecOutcome.request "/api/reference-management/format"
          (ToolRequest.referenceFormatReq (jsOr node.data.config.referencesInput s)
            node.data.config.citationStyle node.data.config.model)) := by
  refine ⟨?_, ?_, ?_, ?_, ?_⟩ <;> intro ht <;>
    simp only [handleToolExecution, hfind, ht, hadapt, stringOrEmpty, jsOrAdapt,
      if_neg hs]
  · rw [if_neg (jsOr_ne_empty node.data.config.prompt hs)]
  · rw [if_neg (jsOr_ne_empty node.data.config.prompt hs)]
  · cases hr : node.data.config.referencesInput with
    | none => simp [jsOr]
    | some r =>
      by_cases hre : r = "" <;> simp [jsOr, hre]

/-- C4 witness: the amended precedence applied to the concrete graph where
the Claim Extractor consumer has config.prompt "x" and the adapted
predecessor output is "y". -/
theorem C4_effective_input_precedence_witness :
    handleToolExecution configWinsGraph abEdge "b" =
      ExecOutcome.request "/api/claim-extractor/extract"
        (ToolRequest.claimExtractorReq (jsOr (some "x") "y") none) :=
  (C4_effective_input_precedence configWinsGraph abEdge "b"
    (sampleNode "b" .claimExtractor { prompt := some "x" } .pending none)
    "y" (by decide) (by decide) (by decide)).2.2.1 rfl

/-- C5 counterexample: a Reference & Citation Management node with no
predecessor and an entirely empty config still invokes the external
endpoint (with an empty references input) instead of ending in a
configuration error — so the claim does not hold for every tool type. -/
theorem C5_counterexample_reference_still_invokes :
    handleToolExecution lonelyReferenceGraph [] "r" =
      ExecOutcome.request "/api/reference-management/format"
        (ToolRequest.referenceFormatReq "" none none) := by
  decide

/-- C5 (amended): for Claim Extractor and Contradiction Checker nodes —
but not for the other tool types — executing with no predecessor output
and an empty literal config prompt throws a configuration error with a
non-empty descriptive message before any endpoint call, and the resulting
error write-back leaves every other node unchanged. -/
theorem C5_empty_input_errors_extractor_checker
    (nodes : List WNode) (edges : List WEdge) (nodeId : String) (node : WNode)
    (hfind : nodes.find? (fun n => n.id = nodeId) = some node)
    (htool : node.data.toolType = ToolType.claimExtractor ∨
             node.data.toolType = ToolType.contradictionChecker)
    (hprompt : jsOr node.data.config.prompt "" = "")
    (hadapt : getInputFromPredecessorNode nodeId edges nodes none = AdaptResult.nullv) :
    (∃ msg, handleToolExecution nodes edges nodeId = ExecOutcome.configError msg ∧
      ¬ msg = "") ∧
    (∀ m ∈ nodes, ¬ m.id = nodeId →
      ∀ msg sid, m ∈ applyExecError nodes nodeId msg sid) := by
  constructor
  · rcases htool with ht | ht <;>
      simp only [handleToolExecution, hfind, ht, hadapt, stringOrEmpty] <;>
      rw [if_pos hprompt]
    · exact ⟨_, rfl, by decide⟩
    · exact ⟨_, rfl, by decide⟩
  · intro m hm hne msg sid
    have h2 := List.mem_map_of_mem
      (fun n => if n.id = nodeId then
        { n with data := { n.data with
                           status := Status.error
                           output := some (Output.errObj msg)
                           sessionId := sid } }
        else n) hm
    simp only [if_neg hne] at h2
    exact h2

/-- C5 witness: the amended theorem applied to a lone Claim Extractor node
with empty config and no incoming edge. -/
theorem C5_empty_input_errors_witness :
    (∃ msg, handleToolExecution lonelyExtractorGraph [] "c" =
      ExecOutcome.configError msg ∧ ¬ msg = "") ∧
    (∀ m ∈ lonelyExtractorGraph, ¬ m.id = "c" →
      ∀ msg sid, m ∈ applyExecError lonelyExtractorGraph "c" msg sid) :=
  C5_empty_input_errors_extractor_checker lonelyExtractorGraph [] "c"
    (sampleNode "c" .claimExtractor {} .pending none)
    (by decide) (Or.inl rfl) (by decide) (by decide)

/-- C6 counterexample: the single editing operation "load a document whose
two nodes share id A" produces a graph with duplicate node ids — loaded
ids are not validated, so uniqueness does not hold over every editing
sequence that includes document load. -/
theorem C6_counterexample_docLoad_duplicate_ids :
    ¬ (nodeIds (applyEdits initialBuilderState
        [EditOp.docLoad (some dupIdDoc)]).nodes).Nodup := by
  decide

/-- C6 (amended): node ids are unique after every reachable sequence of
drop, copy, cut, paste, select-all, delete-selection, undo and redo
operations from the initial empty state; preset load and document load are
excluded, since they install ids without validation or counter adjustment. -/
theorem C6_ids_unique_without_loads (ops : List EditOp)
    (hops : ∀ op ∈ ops, op.isLoad = false) :
    (nodeIds (applyEdits initialBuilderState ops).nodes).Nodup :=
  (applyEdits_inv ops initialBuilderState initialBuilderState_inv hops).nodup

/-- C6 witness: a concrete load-free session — drop, select-all, copy,
paste, paste, undo, redo — ends with pairwise distinct node ids. -/
theorem C6_ids_unique_without_loads_witness :
    (∀ op ∈ ([EditOp.drop ToolType.sourceFinder { x := 0, y := 0 },
              EditOp.selectAll, EditOp.copy, EditOp.paste, EditOp.paste,
              EditOp.undo, EditOp.redo] : List EditOp), op.isLoad = false) ∧
    (nodeIds (applyEdits initialBuilderState
        [EditOp.drop ToolType.sourceFinder { x := 0, y := 0 },
         EditOp.selectAll, EditOp.copy, EditOp.paste, EditOp.paste,
         EditOp.undo, EditOp.redo]).nodes).Nodup :=
  ⟨by decide,
   C6_ids_unique_without_loads
     [EditOp.drop ToolType.sourceFinder { x := 0, y := 0 },
      EditOp.selectAll, EditOp.copy, EditOp.paste, EditOp.paste,
      EditOp.undo, EditOp.redo] (by decide)⟩

/-- C7 counterexample: in a state whose graph already contains a node with
id A_1 (as a loaded document may) and whose buffer holds a node with id A
at counter 1, paste mints the colliding id A_1; the following undo removes
both copies, so the pre-paste node set is not restored. -/
theorem C7_counterexample_colliding_paste_undo :
    (stepEdit (stepEdit collidingPasteState EditOp.paste) EditOp.undo).nodes ≠
      collidingPasteState.nodes := by
  decide

/-- C7 (amended): paste followed immediately by undo restores exactly the
pre-paste node and edge sets and moves the paste action onto the redo
stack, provided the minted node and edge ids do not already occur in the
graph (which holds in every state whose ids were produced by the id
counter, but can fail after an unvalidated document load). -/
theorem C7_paste_undo_exact (st : BuilderState) (bn : List WNode) (be : List WEdge)
    (hbuf : st.copyBuffer = some (bn, be)) (hne : ¬ bn = [])
    (hnodes : ∀ id ∈ nodeIds (pasteNodesRemap bn st.idCounter).1,
      id ∉ nodeIds st.nodes)
    (hedges : ∀ id ∈ edgeIds (pasteEdgesRemap (pasteNodesRemap bn st.idCounter).2.1 be
        (pasteNodesRemap bn st.idCounter).2.2).1, id ∉ edgeIds st.edges) :
    (stepEdit (stepEdit st EditOp.paste) EditOp.undo).nodes = st.nodes ∧
    (stepEdit (stepEdit st EditOp.paste) EditOp.undo).edges = st.edges ∧
    (stepEdit (stepEdit st EditOp.paste) EditOp.undo).lastAction = none ∧
    (stepEdit (stepEdit st EditOp.paste) EditOp.undo).redoAction =
      some { type := ActionType.paste
             nodes := (pasteNodesRemap bn st.idCounter).1
             edges := (pasteEdgesRemap (pasteNodesRemap bn st.idCounter).2.1 be
               (pasteNodesRemap bn st.idCounter).2.2).1 } := by
  simp only [nodeIds] at hnodes
  simp only [edgeIds] at hedges
  simp only [stepEdit, hbuf]
  refine ⟨?_, ?_, trivial, trivial⟩
  · exact filter_not_contains_key (fun (n : WNode) => n.id) st.nodes
      (pasteNodesRemap bn st.idCounter).1 hnodes
  · exact filter_not_contains_key (fun (e : WEdge) => e.id) st.edges
      (pasteEdgesRemap (pasteNodesRemap bn st.idCounter).2.1 be
        (pasteNodesRemap bn st.idCounter).2.2).1 hedges

/-- C7 witness: the amended theorem applied to a fresh one-node state with
a one-node buffer: paste then undo restores the exact graph. -/
theorem C7_paste_undo_exact_witness :
    (stepEdit (stepEdit freshPasteState EditOp.paste) EditOp.undo).nodes =
      freshPasteState.nodes ∧
    (stepEdit (stepEdit freshPasteState EditOp.paste) EditOp.undo).lastAction = none :=
  ⟨(C7_paste_undo_exact freshPasteState
      [sampleNode "B" .sourceFinder {} .pending none] []
      rfl (by decide) (by decide) (by decide)).1,
   (C7_paste_undo_exact freshPasteState
      [sampleNode "B" .sourceFinder {} .pending none] []
      rfl (by decide) (by decide) (by decide)).2.2.1⟩
